import Mathlib

/-!
Verification development for the Sentinel controller
(pkg/sentinel: helpers.go, start.go, app_discovery.go).

The Go code is shallowly embedded: Go maps become association lists
(`List (String × String)`) with Go's zero-value lookup (`labelGet`),
Go slices become `List`, the capacity-1 namespace channel becomes an
`Option (List String)` mailbox, and the informer callbacks become pure
functions that return the list of metric emissions ("facts") they
would perform.
-/

namespace Sentinel

/-- Go map read `m[key]` for a `map[string]string`: the zero value `""`
is returned when the key is absent. -/
def labelGet (labels : List (String × String)) (key : String) : String :=
  (labels.lookup key).getD ""

/-- A Kubernetes namespace as used by the watcher: its name and its
label map. -/
structure KNamespace where
  name : String
  labels : List (String × String)
deriving DecidableEq, Repr

/-- helpers.go `namespaceMatchesSelector`: iterate over the selector
entries; return false as soon as `ns.Labels[key] != value`
(Go map read, missing key reads as `""`), true when the loop finishes. -/
def namespaceMatchesSelector (ns : KNamespace) : List (String × String) → Bool
  | [] => true
  | (key, value) :: rest =>
    if labelGet ns.labels key ≠ value then false
    else namespaceMatchesSelector ns rest

/-- helpers.go `slicePurge`: remove the first occurrence of `item` from
the slice; return the slice unchanged when the item is not found. -/
def slicePurge : List String → String → List String
  | [], _ => []
  | v :: rest, item => if v = item then rest else v :: slicePurge rest item

/-- Split a character list at the first occurrence of `sep`:
`none` when `sep` does not occur, otherwise the pieces strictly before
and strictly after that occurrence. -/
def splitOnceChar (sep : Char) : List Char → Option (List Char × List Char)
  | [] => none
  | c :: rest =>
    if c = sep then some ([], rest)
    else
      match splitOnceChar sep rest with
      | none => none
      | some (l, r) => some (c :: l, r)

/-- Go `strings.SplitN(s, sep, 2)` for a one-character separator (the
source only splits on `":"` and `"/"`): split around the first instance
of `sep`; when `sep` does not occur the result is `[s]`. -/
def goSplitN2 (s : String) (sep : Char) : List String :=
  match splitOnceChar sep s.data with
  | none => [s]
  | some (l, r) => [String.mk l, String.mk r]

/-- Go `strings.Contains(s, sub)` for a one-character `sub` (the source
only tests for `"."` and `":"`): character containment. -/
def goContains (s : String) (c : Char) : Bool :=
  s.data.contains c

/-- helpers.go `parseImage`: split the whole image on the first `:` to
obtain the tag (default `"latest"`), then split the remaining path on
the first `/`; a first path segment containing `.` or `:` or equal to
`localhost` is treated as the registry, otherwise the registry defaults
to `docker.io`. Result is `(registry, repository, tag)`. -/
def parseImage (image : String) : String × String × String :=
  let parts := goSplitN2 image ':'
  let imagePath := parts.headD image
  let tag := if parts.length = 2 then parts.getD 1 "latest" else "latest"
  let pathParts := goSplitN2 imagePath '/'
  if pathParts.length = 1 then
    ("docker.io", imagePath, tag)
  else
    let first := pathParts.headD ""
    if goContains first '.' || goContains first ':' || first = "localhost" then
      (first, pathParts.getD 1 "", tag)
    else
      ("docker.io", imagePath, tag)

/-! ### start.go — namespace watcher

`nsChannel` is a Go channel with buffer capacity 1, and every publication
site is a `select` with a `default` branch: when the buffer already holds
an undrained snapshot the send hits `default` and only logs.  The buffer
is modelled as `Option (List String)` and the guarded send as `trySend`. -/

/-- start.go publication sites (`select { case nsChannel <- ...; default: ... }`
on the capacity-1 channel): when the slot is empty the message is stored,
when it is full the send falls to the `default` branch and the message is
discarded. -/
def trySend (slot : Option (List String)) (msg : List String) :
    Option (List String) :=
  match slot with
  | none => some msg
  | some old => some old

/-- start.go `AddFunc`: when the namespace is not already tracked and it
matches the selector, append it and attempt a publication; otherwise do
nothing. -/
def nsAddFunc (NamespaceSelector : List (String × String))
    (initialNamespaces : List String) (slot : Option (List String))
    (namespace_ : KNamespace) : List String × Option (List String) :=
  if !(initialNamespaces.contains namespace_.name) &&
      namespaceMatchesSelector namespace_ NamespaceSelector then
    let updated := initialNamespaces ++ [namespace_.name]
    (updated, trySend slot updated)
  else
    (initialNamespaces, slot)

/-- start.go `UpdateFunc`: on a not-member→member transition append the
namespace, on a member→not-member transition purge it, otherwise leave the
tracked list alone; in every case (the `select` sits after the `if`/`else`
chain) attempt to publish the tracked list. -/
def nsUpdateFunc (NamespaceSelector : List (String × String))
    (initialNamespaces : List String) (slot : Option (List String))
    (oldNs newNs : KNamespace) : List String × Option (List String) :=
  let oldMatches := namespaceMatchesSelector oldNs NamespaceSelector
  let newMatches := namespaceMatchesSelector newNs NamespaceSelector
  let updated :=
    if newMatches && !oldMatches then initialNamespaces ++ [newNs.name]
    else if !newMatches && oldMatches then slicePurge initialNamespaces newNs.name
    else initialNamespaces
  (updated, trySend slot updated)

/-- start.go `DeleteFunc`: when the deleted namespace is tracked and
matches the selector, purge it and attempt a publication. -/
def nsDeleteFunc (NamespaceSelector : List (String × String))
    (initialNamespaces : List String) (slot : Option (List String))
    (namespace_ : KNamespace) : List String × Option (List String) :=
  if initialNamespaces.contains namespace_.name &&
      namespaceMatchesSelector namespace_ NamespaceSelector then
    let updated := slicePurge initialNamespaces namespace_.name
    (updated, trySend slot updated)
  else
    (initialNamespaces, slot)

/-! ### app_discovery.go — informer lifecycle -/

/-- app_discovery.go `NamespaceInformer`: the per-namespace entry of the
active map.  The stop channel and shared factory have no observable pure
content beyond the namespace the factory was created for
(`informers.WithNamespace(ns)`), recorded here. -/
structure NamespaceInformer where
  ns : String
deriving DecidableEq, Repr

/-- Outcome of one iteration of the `AppDiscovery` consumer loop: the
updated `activeInformers` map plus the namespaces for which informers
were started and stopped during that iteration. -/
structure ReconcileResult where
  activeInformers : List (String × NamespaceInformer)
  started : List String
  stopped : List String
deriving DecidableEq, Repr

/-- Go map membership test `_, exists := activeInformers[ns]`. -/
def hasKey (m : List (String × NamespaceInformer)) (k : String) : Bool :=
  m.any (fun e => e.1 = k)

/-- app_discovery.go start loop: for each namespace of the received list,
when no informer is active for it, create one (`WithNamespace(ns)`) and
record it in the map; namespaces already present are skipped. Returns the
updated map and the namespaces started, in order. -/
def startInformers (m : List (String × NamespaceInformer)) :
    List String → List (String × NamespaceInformer) × List String
  | [] => (m, [])
  | ns :: rest =>
    if hasKey m ns then startInformers m rest
    else
      let step := startInformers (m ++ [(ns, ⟨ns⟩)]) rest
      (step.1, ns :: step.2)

/-- app_discovery.go stop loop: informers whose namespace is no longer in
the current set are closed and deleted from the map.  Returns the
remaining map and the namespaces stopped. -/
def stopInformers (m : List (String × NamespaceInformer))
    (currentSet : List String) :
    List (String × NamespaceInformer) × List String :=
  (m.filter (fun e => currentSet.contains e.1),
   (m.filter (fun e => !(currentSet.contains e.1))).map (fun e => e.1))

/-- One iteration of the `AppDiscovery` consumer loop for a received
namespace list: start informers for new namespaces, then stop informers
for namespaces no longer present. -/
def reconcile (active : List (String × NamespaceInformer))
    (namespaces : List String) : ReconcileResult :=
  let startStep := startInformers active namespaces
  let stopStep := stopInformers startStep.1 namespaces
  ⟨stopStep.1, startStep.2, stopStep.2⟩

/-! ### app_discovery.go — workload change detection

The informer callbacks only observe the world through the two Prometheus
metric objects; each callback is embedded as a pure function returning
the list of metric emissions (`Fact`s) it performs, in order. -/

/-- A workload container: name and image string
(`corev1.Container` restricted to the fields the source reads). -/
structure Container where
  name : String
  image : String
deriving DecidableEq, Repr

/-- shared/sentinel_config.go `ExtraLabel` (`Type` is spelled `typ`). -/
structure ExtraLabel where
  typ : String
  key : String
  timeseriesLabelName : String
deriving DecidableEq, Repr

/-- The `metav1.Object` view the detector reads: name, labels,
annotations. -/
structure WorkloadMeta where
  name : String
  labels : List (String × String)
  annotations : List (String × String)
deriving DecidableEq, Repr

/-- helpers.go `extractExtraLabelValues`: one value per configured extra
label, in configuration order; `annotation` and `label` sources read the
respective map (missing key or unknown source type yields `""`, matching
the Go zero value and the nil-map checks). -/
def extractExtraLabelValues (obj : WorkloadMeta)
    (extraLabels : List ExtraLabel) : List String :=
  extraLabels.map fun extractor =>
    if extractor.typ = "annotation" then labelGet obj.annotations extractor.key
    else if extractor.typ = "label" then labelGet obj.labels extractor.key
    else ""

/-- A metric emission: `observed` is one
`SentinelContainerImageInfo.WithLabelValues(...).Set(1)` call with its
label values, `imageChange` is one
`SentinelImageChangesTotal.WithLabelValues(...).Inc()` call with its
label values (in the source's label order). -/
inductive Fact where
  | observed (workloadType namespaceName workloadName containerName
      image registry repository tag : String) (extraLabelValues : List String)
  | imageChange (namespaceName workloadType workloadName containerName
      oldTag newTag : String)
deriving DecidableEq, Repr

/-- app_discovery.go `setContainerMetric`: parse the image and set the
info gauge with the base labels followed by the extra label values. -/
def setContainerMetric (workloadType namespaceName workloadName : String)
    (container : Container) (extraLabelValues : List String) : Fact :=
  match parseImage container.image with
  | (registry, repository, tag) =>
    .observed workloadType namespaceName workloadName container.name
      container.image registry repository tag extraLabelValues

/-- Go map assignment `m[k] = v` on a `map[string]string` embedded as an
association list: overwrite the binding when the key is present,
otherwise add it. -/
def mapInsert (m : List (String × String)) (k v : String) :
    List (String × String) :=
  if m.any (fun e => e.1 = k) then
    m.map (fun e => if e.1 = k then (k, v) else e)
  else m ++ [(k, v)]

/-- app_discovery.go `handleWorkloadUpdate`, lines 223-227: build the
`oldImages` map (containerName → image) from the old containers. -/
def buildOldImages (oldContainers : List Container) :
    List (String × String) :=
  oldContainers.foldl (fun m container => mapInsert m container.name container.image) []

/-- The tag component of an image string as the source computes it:
`_, _, tag := parseImage(image)`. -/
def tagOf (image : String) : String :=
  (parseImage image).2.2

/-- Body of the `for _, newContainer := range newContainers` loop of
app_discovery.go `handleWorkloadUpdate`: set the info gauge, and when
the container name is bound in `oldImages` to a different image string,
increment the change counter with the parsed old/new tags. -/
def updateContainerFacts (resourceType namespaceName workloadName : String)
    (extraLabelValues : List String) (oldImages : List (String × String))
    (newContainer : Container) : List Fact :=
  setContainerMetric resourceType namespaceName workloadName
    newContainer extraLabelValues ::
  (match oldImages.lookup newContainer.name with
   | some oldImage =>
     if oldImage ≠ newContainer.image then
       [Fact.imageChange namespaceName resourceType workloadName
          newContainer.name (tagOf oldImage) (tagOf newContainer.image)]
     else []
   | none => [])

/-- app_discovery.go `handleWorkloadUpdate`: act only when
`newGen > oldGen`; then run the per-container loop over the new
containers against the `oldImages` map. -/
def handleWorkloadUpdate (resourceType namespaceName : String)
    (newWorkload : WorkloadMeta) (oldGen newGen : Int)
    (newContainers oldContainers : List Container)
    (extraLabels : List ExtraLabel) : List Fact :=
  if newGen > oldGen then
    let extraLabelValues := extractExtraLabelValues newWorkload extraLabels
    let oldImages := buildOldImages oldContainers
    newContainers.flatMap
      (updateContainerFacts resourceType namespaceName newWorkload.name
        extraLabelValues oldImages)
  else []

/-- app_discovery.go `handleWorkloadAdd`: set the info gauge for every
container of the added workload. -/
def handleWorkloadAdd (resourceType namespaceName : String)
    (workload : WorkloadMeta) (containers : List Container)
    (extraLabels : List ExtraLabel) : List Fact :=
  let extraLabelValues := extractExtraLabelValues workload extraLabels
  containers.map fun container =>
    setContainerMetric resourceType namespaceName workload.name container
      extraLabelValues

/-- A delivered workload revision (`appsv1.Deployment` and friends
restricted to the fields the update callback reads). -/
structure Workload where
  name : String
  resourceVersion : String
  generation : Int
  labels : List (String × String)
  annotations : List (String × String)
  containers : List Container
deriving DecidableEq, Repr

/-- The `metav1.Object` projection of a workload. -/
def workloadMeta (w : Workload) : WorkloadMeta :=
  ⟨w.name, w.labels, w.annotations⟩

/-- app_discovery.go Deployment `UpdateFunc` (the StatefulSet and
DaemonSet handlers are textually identical up to the kind string):
return immediately when the resource version is unchanged, otherwise
delegate to `handleWorkloadUpdate` with old/new generations and
containers. -/
def deploymentUpdateFunc (nsCopy : String) (extraLabels : List ExtraLabel)
    (oldDeploy newDeploy : Workload) : List Fact :=
  if oldDeploy.resourceVersion = newDeploy.resourceVersion then []
  else
    handleWorkloadUpdate "Deployment" nsCopy (workloadMeta newDeploy)
      oldDeploy.generation newDeploy.generation
      newDeploy.containers oldDeploy.containers extraLabels

/-- Selector for the change-counter increments
(`SentinelImageChangesTotal`) that carry container name `n`. -/
def isChangeFor (n : String) : Fact → Bool
  | .imageChange _ _ _ containerName _ _ => containerName = n
  | _ => false

/-! ## Theorems -/

/-- Claim C1 (code bug): `parseImage` splits the tag off at the FIRST
`:` of the whole string, so the port-bearing registry host
`registry:5000/app` is mistaken for a tag separator: the code returns
`("docker.io", "registry", "5000/app")`, not the
`("registry:5000", "app", "latest")` the documented algorithm requires
(the `strings.Contains(pathParts[0], ":")` registry check is dead code,
since the path was produced by splitting on the first `:`). -/
theorem parseImage_port_registry_eval :
    parseImage "registry:5000/app" = ("docker.io", "registry", "5000/app") ∧
    parseImage "registry:5000/app" ≠ ("registry:5000", "app", "latest") := by
  decide

/-- Claim C2 (code bug): of the five documented parser examples the code
reproduces four, but `localhost:5000/app` parses to
`("docker.io", "localhost", "5000/app")` instead of the documented
`("localhost:5000", "app", "latest")`, because the tag split runs on the
whole string at the first `:` rather than on the substring after the
last `/`. -/
theorem parseImage_examples_eval :
    parseImage "nginx:1.28.2" = ("docker.io", "nginx", "1.28.2") ∧
    parseImage "nginx" = ("docker.io", "nginx", "latest") ∧
    parseImage "ghcr.io/org/app:v1.2.3" = ("ghcr.io", "org/app", "v1.2.3") ∧
    parseImage "library/nginx:latest" = ("docker.io", "library/nginx", "latest") ∧
    parseImage "localhost:5000/app" = ("docker.io", "localhost", "5000/app") ∧
    parseImage "localhost:5000/app" ≠ ("localhost:5000", "app", "latest") := by
  decide

/-- Claim C7, counterexample: a selector entry whose required value is
the empty string matches a namespace in which the key is MISSING
(Go map reads return the zero value `""`), contradicting the claim that
a missing key never matches. -/
theorem namespaceMatchesSelector_missing_key_cex :
    namespaceMatchesSelector ⟨"ns", []⟩ [("team", "")] = true ∧
    List.lookup "team" ([] : List (String × String)) = none := by
  decide

/-- Claim C7, amended: `namespaceMatchesSelector ns sel` is true iff
every selector entry `(k, v)` satisfies `labelGet ns.labels k = v`,
where `labelGet` reads `""` for a missing key; in particular the empty
selector matches every namespace, and a missing key matches exactly the
required value `""`. -/
theorem namespaceMatchesSelector_iff (ns : KNamespace)
    (sel : List (String × String)) :
    namespaceMatchesSelector ns sel = true ↔
      ∀ p ∈ sel, labelGet ns.labels p.1 = p.2 := by
  induction sel with
  | nil => simp [namespaceMatchesSelector]
  | cons p rest ih =>
    obtain ⟨key, value⟩ := p
    by_cases h : labelGet ns.labels key = value
    · simp [namespaceMatchesSelector, h, ih]
    · simp only [namespaceMatchesSelector, if_pos h, List.mem_cons]
      constructor
      · intro hfalse
        exact absurd hfalse (by simp)
      · intro hall
        exact absurd (hall (key, value) (Or.inl rfl)) h

/-- Claim C3, counterexample: a membership transition for namespace `b`
arrives while the mailbox still holds the undrained snapshot `["a"]`;
the code keeps the OLD snapshot `["a"]` and discards the new snapshot
`["a", "b"]` (`select` falls through to `default`), so the newest
snapshot is not the one retained. -/
theorem mailbox_drops_newest_cex :
    nsUpdateFunc [("watch", "on")] ["a"] (some ["a"])
        ⟨"b", []⟩ ⟨"b", [("watch", "on")]⟩ = (["a", "b"], some ["a"]) ∧
    (some ["a"] : Option (List String)) ≠ some ["a", "b"] := by
  decide

/-- Claim C3, amended: when a snapshot is published while the
single-slot mailbox still holds an undrained previous snapshot, the NEW
snapshot is discarded and the OLD one retained (oldest wins, not latest
wins). -/
theorem trySend_full_keeps_old (old msg : List String) :
    trySend (some old) msg = some old :=
  rfl

/-- Claim C4, counterexample: an update notification for namespace `x`
with identical old and new objects (hence no membership transition)
still publishes a snapshot into the empty mailbox. -/
theorem nsUpdateFunc_publishes_without_transition_cex :
    nsUpdateFunc [("watch", "on")] ["x"] none
        ⟨"x", [("watch", "on")]⟩ ⟨"x", [("watch", "on")]⟩
      = (["x"], some ["x"]) ∧
    (some ["x"] : Option (List String)) ≠ none := by
  decide

/-- Claim C4, amended: on a namespace update notification with no
membership transition the tracked list is left unchanged, but a
publication of the (unchanged) snapshot is still attempted — the send
sits after the transition `if`/`else` chain, so every update
notification publishes. -/
theorem nsUpdateFunc_no_transition_publish (sel : List (String × String))
    (tracked : List String) (slot : Option (List String))
    (oldNs newNs : KNamespace)
    (h : namespaceMatchesSelector oldNs sel = namespaceMatchesSelector newNs sel) :
    nsUpdateFunc sel tracked slot oldNs newNs = (tracked, trySend slot tracked) := by
  cases hnew : namespaceMatchesSelector newNs sel with
  | false => simp [nsUpdateFunc, hnew, h.trans hnew]
  | true => simp [nsUpdateFunc, hnew, h.trans hnew]

/-- Witness for `nsUpdateFunc_no_transition_publish` at a concrete
no-transition update. -/
theorem nsUpdateFunc_no_transition_publish_witness :
    nsUpdateFunc [("watch", "on")] ["x"] none
        ⟨"x", [("watch", "on")]⟩ ⟨"x", [("watch", "on")]⟩
      = (["x"], some ["x"]) :=
  (nsUpdateFunc_no_transition_publish _ _ _ _ _ rfl).trans (by decide)

/-- Claim C5: a delivery with an unchanged resource version, or one
whose new generation is not strictly greater than the old one, emits no
facts at all — no info gauge is set and no change counter is
incremented, regardless of container differences. -/
theorem deploymentUpdateFunc_stale_noop (nsCopy : String)
    (extras : List ExtraLabel) (oldDeploy newDeploy : Workload)
    (h : oldDeploy.resourceVersion = newDeploy.resourceVersion ∨
         newDeploy.generation ≤ oldDeploy.generation) :
    deploymentUpdateFunc nsCopy extras oldDeploy newDeploy = [] := by
  rcases h with h | h
  · simp [deploymentUpdateFunc, h]
  · by_cases hrv : oldDeploy.resourceVersion = newDeploy.resourceVersion
    · simp [deploymentUpdateFunc, hrv]
    · simp only [deploymentUpdateFunc, if_neg hrv, handleWorkloadUpdate]
      rw [if_neg (by omega)]

/-- Witness for `deploymentUpdateFunc_stale_noop`: equal generations with
different container images still yield no facts. -/
theorem deploymentUpdateFunc_stale_noop_witness :
    deploymentUpdateFunc "ns" []
        ⟨"w", "rv1", 1, [], [], [⟨"a", "img:1"⟩]⟩
        ⟨"w", "rv2", 1, [], [], [⟨"a", "img:2"⟩]⟩ = [] :=
  deploymentUpdateFunc_stale_noop _ _ _ _ (Or.inr (by decide))

/-! ### Lifecycle lemmas -/

lemma hasKey_iff_mem (m : List (String × NamespaceInformer)) (k : String) :
    hasKey m k = true ↔ k ∈ m.map Prod.fst := by
  simp only [hasKey, List.any_eq_true, decide_eq_true_eq, List.mem_map]

lemma hasKey_of_mem {m : List (String × NamespaceInformer)}
    {e : String × NamespaceInformer} (he : e ∈ m) : hasKey m e.1 = true := by
  simp only [hasKey, List.any_eq_true, decide_eq_true_eq]
  exact ⟨e, he, rfl⟩

lemma startInformers_mem (D : List String)
    (m : List (String × NamespaceInformer)) (k : String) :
    k ∈ (startInformers m D).1.map Prod.fst ↔
      k ∈ m.map Prod.fst ∨ k ∈ D := by
  induction D generalizing m with
  | nil => simp [startInformers]
  | cons d rest ih =>
    cases hd : hasKey m d with
    | true =>
      have hdm : d ∈ m.map Prod.fst := (hasKey_iff_mem m d).1 hd
      simp only [startInformers, hd, if_true, List.mem_cons]
      rw [ih]
      constructor
      · tauto
      · intro hcase
        rcases hcase with h | rfl | h
        · exact Or.inl h
        · exact Or.inl hdm
        · exact Or.inr h
    | false =>
      simp only [startInformers, hd, Bool.false_eq_true, if_false, List.mem_cons]
      rw [ih]
      simp only [List.map_append, List.mem_append, List.map_cons, List.map_nil,
        List.mem_singleton, List.mem_cons, List.not_mem_nil, or_false]
      tauto

lemma startInformers_nodup (D : List String)
    (m : List (String × NamespaceInformer))
    (h : (m.map Prod.fst).Nodup) :
    ((startInformers m D).1.map Prod.fst).Nodup := by
  induction D generalizing m with
  | nil => simpa [startInformers] using h
  | cons d rest ih =>
    cases hd : hasKey m d with
    | true => simpa only [startInformers, hd, if_true] using ih m h
    | false =>
      have hdm : d ∉ m.map Prod.fst := by
        intro hmem
        have := (hasKey_iff_mem m d).2 hmem
        rw [hd] at this
        exact Bool.false_ne_true this
      have h' : ((m ++ [(d, NamespaceInformer.mk d)]).map Prod.fst).Nodup := by
        rw [List.map_append]
        refine List.Nodup.append h (by simp) ?_
        intro a ha hb
        simp only [List.map_cons, List.map_nil, List.mem_singleton] at hb
        exact hdm (hb ▸ ha)
      simpa only [startInformers, hd, Bool.false_eq_true, if_false] using ih _ h'

lemma stopInformers_mem (m : List (String × NamespaceInformer))
    (cur : List String) (k : String) :
    k ∈ (stopInformers m cur).1.map Prod.fst ↔
      k ∈ m.map Prod.fst ∧ k ∈ cur := by
  simp only [stopInformers, List.mem_map, List.mem_filter, List.elem_iff]
  constructor
  · rintro ⟨e, ⟨hem, hc⟩, rfl⟩
    refine ⟨⟨e, hem, rfl⟩, hc⟩
  · rintro ⟨⟨e, hem, rfl⟩, hc⟩
    exact ⟨e, ⟨hem, hc⟩, rfl⟩

lemma stopInformers_nodup (m : List (String × NamespaceInformer))
    (cur : List String) (h : (m.map Prod.fst).Nodup) :
    ((stopInformers m cur).1.map Prod.fst).Nodup :=
  h.sublist ((List.filter_sublist m).map Prod.fst)

lemma startInformers_all_present (D : List String)
    (m : List (String × NamespaceInformer))
    (h : ∀ d ∈ D, hasKey m d = true) :
    startInformers m D = (m, []) := by
  induction D with
  | nil => rfl
  | cons d rest ih =>
    simp only [startInformers, h d (List.mem_cons_self d rest), if_true]
    exact ih fun x hx => h x (List.mem_cons_of_mem d hx)

lemma stopInformers_all_present (m : List (String × NamespaceInformer))
    (cur : List String) (h : ∀ e ∈ m, cur.contains e.1 = true) :
    stopInformers m cur = (m, []) := by
  unfold stopInformers
  rw [List.filter_eq_self.2 h]
  have : m.filter (fun e => !(cur.contains e.1)) = [] := by
    rw [List.filter_eq_nil_iff]
    intro e he
    simp [List.elem_iff.1 (h e he)]
  rw [this]
  rfl

/-- Claim C8: after processing a published namespace list `D`, the key
set of the active-informer map is exactly (the set of) `D`, and the map
still has no duplicate entries per namespace (at most one informer set
per namespace). -/
theorem reconcile_keys_eq_desired (active : List (String × NamespaceInformer))
    (D : List String) (k : String)
    (h : (active.map Prod.fst).Nodup) :
    (hasKey (reconcile active D).activeInformers k = true ↔ k ∈ D) ∧
    ((reconcile active D).activeInformers.map Prod.fst).Nodup := by
  refine ⟨?_, stopInformers_nodup _ _ (startInformers_nodup D active h)⟩
  show hasKey (stopInformers (startInformers active D).1 D).1 k = true ↔ k ∈ D
  rw [hasKey_iff_mem, stopInformers_mem, startInformers_mem]
  constructor
  · rintro ⟨_, hk⟩; exact hk
  · intro hk; exact ⟨Or.inr hk, hk⟩

/-- Witness for `reconcile_keys_eq_desired`: two active namespaces,
desired set `["b", "c"]`, checked at key `"c"`. -/
theorem reconcile_keys_eq_desired_witness :
    (hasKey (reconcile [("a", ⟨"a"⟩), ("b", ⟨"b"⟩)] ["b", "c"]).activeInformers "c"
        = true ↔ "c" ∈ ["b", "c"]) ∧
    ((reconcile [("a", ⟨"a"⟩), ("b", ⟨"b"⟩)] ["b", "c"]).activeInformers.map
      Prod.fst).Nodup :=
  reconcile_keys_eq_desired _ _ _ (by decide)

/-- Claim C9: reconciling a namespace list whose set already equals the
active map's key set starts nothing, stops nothing, and leaves the map
unchanged. -/
theorem reconcile_idempotent (active : List (String × NamespaceInformer))
    (D : List String) (h : ∀ k, hasKey active k = true ↔ k ∈ D) :
    reconcile active D = ⟨active, [], []⟩ := by
  have hstart : startInformers active D = (active, []) :=
    startInformers_all_present D active fun d hd => (h d).2 hd
  have hstop : stopInformers active D = (active, []) := by
    refine stopInformers_all_present active D fun e he => ?_
    have : e.1 ∈ D := (h e.1).1 (hasKey_of_mem he)
    exact List.elem_eq_true_of_mem this
  show ReconcileResult.mk (stopInformers (startInformers active D).1 D).1
      (startInformers active D).2 (stopInformers (startInformers active D).1 D).2 = _
  rw [hstart, hstop]

/-- Witness for `reconcile_idempotent` at a concrete already-converged
state. -/
theorem reconcile_idempotent_witness :
    reconcile [("a", ⟨"a"⟩)] ["a"] = ⟨[("a", ⟨"a"⟩)], [], []⟩ :=
  reconcile_idempotent _ _ (by
    intro k
    simp [hasKey, List.mem_singleton, eq_comm])

/-! ### Change-detection lemmas -/

lemma mapInsert_fresh (m : List (String × String)) (k v : String)
    (h : m.any (fun e => e.1 = k) = false) :
    mapInsert m k v = m ++ [(k, v)] := by
  simp [mapInsert, h]

lemma foldl_mapInsert_fresh (cs : List Container) (acc : List (String × String))
    (hdisj : ∀ c ∈ cs, acc.any (fun e => e.1 = c.name) = false)
    (h : (cs.map Container.name).Nodup) :
    cs.foldl (fun m c => mapInsert m c.name c.image) acc
      = acc ++ cs.map (fun c => (c.name, c.image)) := by
  induction cs generalizing acc with
  | nil => simp
  | cons c rest ih =>
    rw [List.foldl_cons, mapInsert_fresh _ _ _ (hdisj c (List.mem_cons_self c rest))]
    rw [ih (acc ++ [(c.name, c.image)]) ?_ (List.nodup_cons.1 h).2]
    · simp
    · intro c' hc'
      have h1 := hdisj c' (List.mem_cons_of_mem c hc')
      have h2 : c.name ≠ c'.name := by
        intro heq
        exact (List.nodup_cons.1 h).1 (heq ▸ List.mem_map_of_mem Container.name hc')
      simp [List.any_append, h1, h2]

lemma buildOldImages_eq (cs : List Container)
    (h : (cs.map Container.name).Nodup) :
    buildOldImages cs = cs.map (fun c => (c.name, c.image)) := by
  simpa using foldl_mapInsert_fresh cs [] (by simp) h

lemma lookup_map_containers (cs : List Container) (n : String) :
    List.lookup n (cs.map fun c => (c.name, c.image))
      = (cs.find? (fun c => c.name = n)).map Container.image := by
  induction cs with
  | nil => rfl
  | cons c rest ih =>
    by_cases h : c.name = n
    · simp [List.lookup, List.find?, h]
    · simp only [List.map_cons, List.lookup, List.find?]
      rw [beq_eq_false_iff_ne.2 (Ne.symm h), decide_eq_false h]
      exact ih

lemma isChangeFor_setContainerMetric (n rt nsn wn : String) (c : Container)
    (ex : List String) :
    isChangeFor n (setContainerMetric rt nsn wn c ex) = false := by
  unfold setContainerMetric
  rcases parseImage c.image with ⟨r, p, t⟩
  rfl

lemma filter_updateContainerFacts (rt nsn wn : String) (ex : List String)
    (oi : List (String × String)) (c : Container) (n : String) :
    (updateContainerFacts rt nsn wn ex oi c).filter (isChangeFor n)
      = if c.name = n then
          (match oi.lookup n with
           | some oldImage =>
             if oldImage ≠ c.image then
               [Fact.imageChange nsn rt wn n (tagOf oldImage) (tagOf c.image)]
             else []
           | none => [])
        else [] := by
  by_cases h : c.name = n
  · subst h
    simp only [updateContainerFacts, List.filter_cons,
      isChangeFor_setContainerMetric, if_pos rfl]
    cases hl : oi.lookup c.name with
    | none => rfl
    | some oldImage =>
      by_cases him : oldImage = c.image
      · simp [him]
      · simp [him, isChangeFor]
  · rw [if_neg h]
    simp only [updateContainerFacts, List.filter_cons,
      isChangeFor_setContainerMetric]
    cases hl : oi.lookup c.name with
    | none => rfl
    | some oldImage =>
      by_cases him : oldImage = c.image
      · simp [him]
      · simp [him, isChangeFor, h]

lemma flatMap_ite_name (G : Container → List Fact) (n : String)
    (cs : List Container) (h : (cs.map Container.name).Nodup) :
    (cs.flatMap fun c => if c.name = n then G c else [])
      = match cs.find? (fun c => c.name = n) with
        | some nc => G nc
        | none => [] := by
  induction cs with
  | nil => rfl
  | cons c rest ih =>
    rw [List.flatMap_cons]
    by_cases hc : c.name = n
    · rw [if_pos hc, List.find?_cons_of_pos _ (by simpa using hc)]
      have hrest : (rest.flatMap fun c => if c.name = n then G c else []) = [] := by
        apply List.flatMap_eq_nil_iff.2
        intro c' hc'
        have : c'.name ≠ n := by
          intro heq
          exact (List.nodup_cons.1 h).1
            (hc ▸ heq ▸ List.mem_map_of_mem Container.name hc')
        rw [if_neg this]
      rw [hrest, List.append_nil]
    · rw [if_neg hc, List.find?_cons_of_neg _ (by simpa using hc), List.nil_append]
      exact ih (List.nodup_cons.1 h).2

lemma update_changeFacts_spec (rt nsn : String) (w : WorkloadMeta)
    (oldGen newGen : Int) (newCs oldCs : List Container)
    (extras : List ExtraLabel) (n : String)
    (hgen : newGen > oldGen) (hnew : (newCs.map Container.name).Nodup)
    (hold : (oldCs.map Container.name).Nodup) :
    (handleWorkloadUpdate rt nsn w oldGen newGen newCs oldCs extras).filter
        (isChangeFor n)
      = match newCs.find? (fun c => c.name = n),
              oldCs.find? (fun c => c.name = n) with
        | some nc, some oc =>
          if oc.image ≠ nc.image then
            [Fact.imageChange nsn rt w.name n (tagOf oc.image) (tagOf nc.image)]
          else []
        | _, _ => [] := by
  simp only [handleWorkloadUpdate, if_pos hgen]
  rw [List.filter_flatMap]
  simp only [filter_updateContainerFacts]
  rw [flatMap_ite_name _ _ _ hnew, buildOldImages_eq _ hold, lookup_map_containers]
  cases newCs.find? (fun c => c.name = n) with
  | none => rfl
  | some nc =>
    cases oldCs.find? (fun c => c.name = n) with
    | none => rfl
    | some oc => rfl

/-- Claim C6: on a qualifying update (`newGen > oldGen`, container names
unique per revision), the change-counter increments carrying container
name `n` are exactly: one increment with the parsed old/new tags when
`n` names a container of both revisions whose image strings differ, and
none otherwise (containers only added or only removed produce no change
fact). -/
theorem handleWorkloadUpdate_change_facts (rt nsn : String)
    (w : WorkloadMeta) (oldGen newGen : Int) (newCs oldCs : List Container)
    (extras : List ExtraLabel) (n : String)
    (hgen : newGen > oldGen) (hnew : (newCs.map Container.name).Nodup)
    (hold : (oldCs.map Container.name).Nodup) :
    (handleWorkloadUpdate rt nsn w oldGen newGen newCs oldCs extras).filter
        (isChangeFor n)
      = match newCs.find? (fun c => c.name = n),
              oldCs.find? (fun c => c.name = n) with
        | some nc, some oc =>
          if oc.image ≠ nc.image then
            [Fact.imageChange nsn rt w.name n (tagOf oc.image) (tagOf nc.image)]
          else []
        | _, _ => [] :=
  update_changeFacts_spec rt nsn w oldGen newGen newCs oldCs extras n
    hgen hnew hold

/-- Witness for `handleWorkloadUpdate_change_facts`: the two documented
scenarios — `{a: img:1} → {a: img:2}` yields exactly one change fact
with tags `1`/`2`, and `{a: img:1} → {a: img:1, b: img:1}` (container
added) yields no change fact for `b`. -/
theorem handleWorkloadUpdate_change_facts_witness :
    (handleWorkloadUpdate "Deployment" "ns" ⟨"w", [], []⟩ 1 2
        [⟨"a", "img:2"⟩] [⟨"a", "img:1"⟩] []).filter (isChangeFor "a")
      = [Fact.imageChange "ns" "Deployment" "w" "a" "1" "2"] ∧
    (handleWorkloadUpdate "Deployment" "ns" ⟨"w", [], []⟩ 1 2
        [⟨"a", "img:1"⟩, ⟨"b", "img:1"⟩] [⟨"a", "img:1"⟩] []).filter
        (isChangeFor "b")
      = [] :=
  ⟨(handleWorkloadUpdate_change_facts "Deployment" "ns" ⟨"w", [], []⟩ 1 2
      [⟨"a", "img:2"⟩] [⟨"a", "img:1"⟩] [] "a"
      (by decide) (by decide) (by decide)).trans (by decide),
   (handleWorkloadUpdate_change_facts "Deployment" "ns" ⟨"w", [], []⟩ 1 2
      [⟨"a", "img:1"⟩, ⟨"b", "img:1"⟩] [⟨"a", "img:1"⟩] [] "b"
      (by decide) (by decide) (by decide)).trans (by decide)⟩

/-- Claim C10: change detection compares full image strings but the
emitted fact records only parsed tags, so an image change that leaves
the tag component unchanged (registry or repository change only) still
emits exactly one change fact, whose old tag equals its new tag. -/
theorem handleWorkloadUpdate_tag_only_change (rt nsn : String)
    (w : WorkloadMeta) (oldGen newGen : Int) (newCs oldCs : List Container)
    (extras : List ExtraLabel) (n : String) (nc oc : Container)
    (hgen : newGen > oldGen) (hnew : (newCs.map Container.name).Nodup)
    (hold : (oldCs.map Container.name).Nodup)
    (hfn : newCs.find? (fun c => c.name = n) = some nc)
    (hfo : oldCs.find? (fun c => c.name = n) = some oc)
    (hne : oc.image ≠ nc.image) (htag : tagOf oc.image = tagOf nc.image) :
    (handleWorkloadUpdate rt nsn w oldGen newGen newCs oldCs extras).filter
        (isChangeFor n)
      = [Fact.imageChange nsn rt w.name n (tagOf oc.image) (tagOf oc.image)] := by
  rw [update_changeFacts_spec rt nsn w oldGen newGen newCs oldCs extras n
    hgen hnew hold, hfn, hfo]
  simp only [if_pos hne, htag]

/-- Witness for `handleWorkloadUpdate_tag_only_change`: registry-only
change `docker.io/app:1.0 → ghcr.io/app:1.0` emits one change fact with
old tag = new tag = `1.0`. -/
theorem handleWorkloadUpdate_tag_only_change_witness :
    (handleWorkloadUpdate "Deployment" "ns" ⟨"w", [], []⟩ 1 2
        [⟨"a", "ghcr.io/app:1.0"⟩] [⟨"a", "docker.io/app:1.0"⟩] []).filter
        (isChangeFor "a")
      = [Fact.imageChange "ns" "Deployment" "w" "a" "1.0" "1.0"] :=
  (handleWorkloadUpdate_tag_only_change "Deployment" "ns" ⟨"w", [], []⟩ 1 2
    [⟨"a", "ghcr.io/app:1.0"⟩] [⟨"a", "docker.io/app:1.0"⟩] [] "a"
    ⟨"a", "ghcr.io/app:1.0"⟩ ⟨"a", "docker.io/app:1.0"⟩
    (by decide) (by decide) (by decide) (by decide) (by decide)
    (by decide) (by decide)).trans (by decide)

end Sentinel
